import Mathlib

/-! Verification of the Doc-Photo-to-PDF-Scanner session and pipeline logic

Shallow embedding of the repository's `src/App.tsx`, `src/types.ts` and the
image-cleanup service module.  JavaScript strings are Lean `String`s, machine
numbers used by the layout arithmetic are rationals, optional/nullable values
are `Option`, and thrown `Error`s are the `.error` side of `Except String`.
The asynchronous `map` + `Promise.all` pipeline of `handleProcessImages` is
embedded as a deterministic event trace: the synchronous start phase of the
`map` callbacks runs first (in index order, as the JavaScript event loop
guarantees), and the remote calls then settle in a parameterised settlement
order.
-/

namespace DocScanner

/-- The `ProcessingState` enum from `src/types.ts`. -/
inductive ProcessingState where
  | IDLE
  | PROCESSING
  | COMPLETE
  | ERROR
deriving DecidableEq, Repr

/-- The `ImageFile` record from `src/types.ts`: the raw `file` bytes are external and
not needed by any claim, so only the identity, display URL and cleaned-result
URL are carried. -/
structure ImageFile where
  id : String
  originalUrl : String
  cleanedUrl : Option String
deriving DecidableEq, Repr

/-- The React state of the `App` component (`src/App.tsx`, lines 15-21):
one session. -/
structure Session where
  imageFiles : List ImageFile
  processingState : ProcessingState
  pdfFilename : String
  pdfUrl : Option String
  progressMessage : String
  errorMessage : String
  showPdfPreview : Bool
deriving DecidableEq, Repr

/-! Section: download filename (`finalPdfFilename`, App.tsx lines 137-139) -/

/-- JavaScript `String.prototype.endsWith`: a suffix test on the character
sequences. -/
def jsEndsWith (s t : String) : Bool :=
  t.data.isSuffixOf s.data

/-- Definition `finalPdfFilename` (App.tsx lines 137-139):
`pdfFilename.endsWith('.pdf') ? pdfFilename : pdfFilename + ".pdf"`. -/
def finalPdfFilename (pdfFilename : String) : String :=
  if jsEndsWith pdfFilename ".pdf" then pdfFilename else pdfFilename ++ ".pdf"

/-! Section: page layout arithmetic (App.tsx lines 85-117) -/

def A4_WIDTH : ℚ := 210
def A4_HEIGHT : ℚ := 297
def MARGIN : ℚ := 10
def pageWidth : ℚ := A4_WIDTH - MARGIN * 2
def pageHeight : ℚ := A4_HEIGHT - MARGIN * 2

/-- The scaled size and placement of one image on one page. -/
structure Placement where
  x : ℚ
  y : ℚ
  finalWidth : ℚ
  finalHeight : ℚ
deriving DecidableEq, Repr

/-- The per-image scaling and centering computation of the PDF loop
(App.tsx lines 102-115): width-first fit into the content rectangle, then
centering on the full page. -/
def placeImage (imgWidth imgHeight : ℚ) : Placement :=
  let ratio := imgWidth / imgHeight
  let finalWidth := pageWidth
  let finalHeight := finalWidth / ratio
  let fw := if finalHeight > pageHeight then pageHeight * ratio else finalWidth
  let fh := if finalHeight > pageHeight then pageHeight else finalHeight
  { x := (A4_WIDTH - fw) / 2
    y := (A4_HEIGHT - fh) / 2
    finalWidth := fw
    finalHeight := fh }

/-! Section: the PDF document loop (App.tsx lines 91-119)

`jsPDF` starts a new document with one page; `doc.addPage()` appends a page;
`doc.addImage` draws on the current page.  The loop body runs only when the
item's cleaned result is non-null, and calls `addPage` whenever the item
index is positive. -/

/-- The observable effect of the jsPDF calls: the number of pages of the
document and the list of `addImage` calls (page number, image data). -/
structure PdfDoc where
  pages : Nat
  placed : List (Nat × String)
deriving DecidableEq, Repr

/-- One iteration of the `for` loop at App.tsx lines 91-119, at item index
`i` (image dimensions are irrelevant to the page-count claims, so `addImage`
is recorded with its data argument only). -/
def pdfLoopStep (doc : PdfDoc) (i : Nat) (imgData : Option String) : PdfDoc :=
  match imgData with
  | none => doc
  | some imgData =>
    let doc1 := if i > 0 then { doc with pages := doc.pages + 1 } else doc
    { doc1 with placed := doc1.placed ++ [(doc1.pages, imgData)] }

/-- The `for` loop from index `i` over the remaining cleaned results. -/
def pdfLoop (doc : PdfDoc) (i : Nat) : List (Option String) → PdfDoc
  | [] => doc
  | item :: rest => pdfLoop (pdfLoopStep doc i item) (i + 1) rest

/-- The whole PDF generation pass over the cleaned results, starting from a
fresh one-page jsPDF document. -/
def generatePdf (cleaned : List (Option String)) : PdfDoc :=
  pdfLoop { pages := 1, placed := [] } 0 cleaned

/-! Section: the image-cleanup service (`cleanImage` in the gemini service module)

The remote response shape used by the code: `response.candidates?.[0]`,
`candidate.finishReason`, `candidate.safetyRatings`,
`candidate.content?.parts?`, and for each part `part.inlineData` /
`part.text`.  JavaScript truthiness of the string fields (`finishReason`,
`text`) is modelled explicitly: an empty string is falsy. -/

structure InlineData where
  mimeType : String
  data : String
deriving DecidableEq, Repr

structure Part where
  inlineData : Option InlineData
  text : Option String
deriving DecidableEq, Repr

structure Content where
  parts : Option (List Part)
deriving DecidableEq, Repr

structure Candidate where
  finishReason : Option String
  safetyRatings : Option (List String)
  content : Option Content
deriving DecidableEq, Repr

structure GenResponse where
  candidates : Option (List Candidate)
deriving DecidableEq, Repr

/-- Accessor for `response.candidates?.[0]`. -/
def GenResponse.firstCandidate (r : GenResponse) : Option Candidate :=
  (r.candidates.getD []).head?

/-- Test `candidate.finishReason && candidate.finishReason !== 'STOP'`:
the finish reason is truthy (present and non-empty) and differs from
`'STOP'`. -/
def abnormalFinish (c : Candidate) : Bool :=
  match c.finishReason with
  | some fr => fr ≠ "" && fr ≠ "STOP"
  | none => false

/-- Model of `JSON.stringify` on the safety-ratings array, each rating
modelled by its serialized form. -/
def jsonStringifyRatings (l : List String) : String :=
  "[" ++ String.intercalate "," l ++ "]"

/-- The error message built at part_000 lines 75-78: the reason, plus the
safety ratings when `candidate.safetyRatings && candidate.safetyRatings.length > 0`. -/
def stopMessage (c : Candidate) : String :=
  let reason := "Image generation stopped. Reason: " ++ (c.finishReason.getD "") ++ "."
  match c.safetyRatings with
  | some rs =>
    if rs.length > 0 then reason ++ " Safety Ratings: " ++ jsonStringifyRatings rs
    else reason
  | none => reason

/-- Accessor for `candidate.content?.parts` with the optional chain collapsed: the part
list, or `[]` when `content` or `parts` is absent (in which case `find`
is never reached and yields `undefined`, exactly as `find` on `[]`). -/
def Candidate.partsList (c : Candidate) : List Part :=
  (c.content.bind Content.parts).getD []

/-- Lookup `candidate.content?.parts?.find(part => part.inlineData)?.inlineData`. -/
def findInline (c : Candidate) : Option InlineData :=
  c.partsList.findSome? Part.inlineData

/-- Lookup `candidate.content?.parts?.find(part => part.text)?.text` with the
truthiness of `part.text` (an empty string is falsy). -/
def findText (c : Candidate) : Option String :=
  c.partsList.findSome? fun p =>
    match p.text with
    | some t => if t ≠ "" then some t else none
    | none => none

/-- The response handling of `cleanImage` (part_000 lines 69-93), before the
outer catch: each `throw new Error(m)` becomes `.error m`, the data-URI
return becomes `.ok`. -/
def processResponse (r : GenResponse) : Except String String :=
  match r.firstCandidate with
  | none => .error "API response did not contain any candidates."
  | some candidate =>
    if abnormalFinish candidate then
      .error (stopMessage candidate)
    else
      match findInline candidate with
      | some d => .ok ("data:" ++ d.mimeType ++ ";base64," ++ d.data)
      | none =>
        match findText candidate with
        | some t => .error ("API returned text instead of an image: \"" ++ t ++ "\"")
        | none => .error "API did not return an image. The response was empty or malformed."

/-- A JavaScript rejection value as seen by the outer `catch`: either an
`Error` carrying a message, or any other value (`error instanceof Error`
false) — e.g. the `ProgressEvent` with which `reader.onerror` rejects. -/
inductive JsError where
  | jsError (message : String)
  | nonError
deriving DecidableEq, Repr

/-- The whole `cleanImage` (part_000 lines 28-102).  Its two external
effects are inputs of the model: `fileResult` is the outcome of
`fileToBase64` (either the parsed mime type and base64 data, or a
rejection — the parse failure rejects with
`Error("Failed to parse base64 string from file.")`, the reader error with
a non-`Error` value), and `resp` is the fulfilled API response.  The outer
catch re-throws every failure with the fixed prefix, using the cause's
`message` when the cause is an `Error` and the generic text otherwise. -/
def cleanImage (fileResult : Except JsError (String × String))
    (resp : GenResponse) : Except String String :=
  match fileResult with
  | .error (.jsError m) => .error ("Failed to process image with AI. " ++ m)
  | .error .nonError => .error ("Failed to process image with AI. An unknown error occurred.")
  | .ok _ =>
    match processResponse resp with
    | .ok uri => .ok uri
    | .error m => .error ("Failed to process image with AI. " ++ m)

/-! Section: the assembly pipeline `handleProcessImages` (App.tsx lines 56-135)

The pipeline is embedded as an event trace plus the final session.  The
JavaScript semantics fixes the shape of every trace:

* `imageFiles.map(async (imageFile, index) => ...)` runs each callback
  synchronously up to its first `await`, in index order.  So the trace
  starts with `setProgress`/`callClean` pairs for indices `0..n-1`, in
  order, before anything can settle — a promise settlement is only
  delivered once the current synchronous execution has finished.
* The `cleanImage` promises then settle, one per index, in a temporal
  order that depends on the remote service; the model takes that order as
  the parameter `σ` (a permutation of `0..n-1`).
* `Promise.all` resolves with the results in index order when all succeed,
  and otherwise rejects with the value of the temporally first rejection;
  the `catch` block then records that message and moves to `ERROR`. -/

deriving instance DecidableEq for Except

/-- An observable event of the pipeline. -/
inductive Ev where
  /-- `setProgressMessage msg`. -/
  | setProgress (msg : String)
  /-- `setErrorMessage msg`. -/
  | setErrorMessage (msg : String)
  /-- `setProcessingState st`. -/
  | setState (st : ProcessingState)
  /-- The invocation `cleanImage(imageFiles[i].file)` starts. -/
  | callClean (i : Nat)
  /-- The `cleanImage` promise for item `i` settles with result `r`. -/
  | settle (i : Nat) (r : Except String String)
  /-- The jsPDF document generation (Step 2 of the pipeline) runs. -/
  | generatePdfRun
deriving DecidableEq, Repr

/-- The progress message set immediately before call `i` (0-based) of `n`:
`` `Cleaning image ${index + 1} of ${imageFiles.length}...` ``. -/
def cleaningMsg (i n : Nat) : String :=
  "Cleaning image " ++ toString (i + 1) ++ " of " ++ toString n ++ "..."

/-- The synchronous start phase of the `map` at App.tsx lines 67-71: for
each index below `k` (with `n` items in total), set the progress message,
then invoke `cleanImage`. -/
def startPhase (n : Nat) : Nat → List Ev
  | 0 => []
  | k + 1 => startPhase n k ++ [.setProgress (cleaningMsg k n), .callClean k]

/-- The settlement phase: the per-item promises settle in temporal order
`σ`, item `i` with outcome `results i`. -/
def settlePhase (results : Nat → Except String String) (σ : List Nat) : List Ev :=
  σ.map fun i => .settle i (results i)

/-- The first rejection in settlement order — the value with which
`Promise.all` rejects, when some call fails. -/
def firstRejection (results : Nat → Except String String) (σ : List Nat) : Option Nat :=
  σ.find? fun i => match results i with | .error _ => true | .ok _ => false

/-- On success of all calls, the updated image list
(`{ ...imageFile, cleanedUrl }` per item, in index order). -/
def attachCleaned (results : Nat → Except String String) : Nat → List ImageFile → List ImageFile
  | _, [] => []
  | i, f :: rest =>
    { f with cleanedUrl := some ((results i).toOption.getD "") } :: attachCleaned results (i + 1) rest

/-- The message with which the pipeline's `catch` is entered: the `message`
of the rejection value (always an `Error` thrown by `cleanImage`). -/
def rejectionMsg (results : Nat → Except String String) (j : Nat) : String :=
  match results j with | .error e => e | .ok _ => ""

/-- The events after all promises have settled: on a rejection, the `catch`
block's `setErrorMessage` and `setProcessingState(ERROR)`; on success, the
PDF generation step and the completion updates. -/
def tailEvents (results : Nat → Except String String) (σ : List Nat) : List Ev :=
  match firstRejection results σ with
  | some j => [.setErrorMessage (rejectionMsg results j), .setState .ERROR]
  | none =>
    [.setProgress "Generating PDF...", .generatePdfRun,
     .setState .COMPLETE, .setProgress "Your PDF is ready!"]

/-- The full event trace of a non-empty run: the two initial state updates,
the synchronous start phase, the settlement phase, then the tail. -/
def pipelineTrace (n : Nat) (results : Nat → Except String String)
    (σ : List Nat) : List Ev :=
  [.setState .PROCESSING, .setErrorMessage ""] ++ startPhase n n ++
    settlePhase results σ ++ tailEvents results σ

/-- The handler `handleProcessImages` (App.tsx lines 56-135).  `results i` is the
outcome of the `cleanImage` call for item `i`, `σ` the temporal settlement
order of those promises, and `pdfUrlNew` the URL that
`URL.createObjectURL(pdfBlob)` returns on the success path.  Returns the
final session and the event trace. -/
def handleProcessImages (s : Session) (results : Nat → Except String String)
    (σ : List Nat) (pdfUrlNew : String) : Session × List Ev :=
  let n := s.imageFiles.length
  if n = 0 then
    ({ s with errorMessage := "Please upload at least one image." },
     [.setErrorMessage "Please upload at least one image."])
  else
    match firstRejection results σ with
    | some j =>
      ({ s with processingState := .ERROR,
                errorMessage := rejectionMsg results j,
                progressMessage := cleaningMsg (n - 1) n },
       pipelineTrace n results σ)
    | none =>
      ({ s with imageFiles := attachCleaned results 0 s.imageFiles,
                processingState := .COMPLETE,
                pdfUrl := some pdfUrlNew,
                progressMessage := "Your PDF is ready!",
                errorMessage := "",
                showPdfPreview := true },
       pipelineTrace n results σ)

/-- The index of a `callClean` event, used to read the cleanup invocations
off a trace. -/
def callIdx : Ev → Option Nat
  | .callClean i => some i
  | _ => none

/-! Section: concrete fixtures used by witnesses and counterexamples -/

/-- A two-item upload session about to be assembled. -/
def sTwo : Session :=
  { imageFiles :=
      [{ id := "a.jpg-1", originalUrl := "blob:a", cleanedUrl := none },
       { id := "b.jpg-2", originalUrl := "blob:b", cleanedUrl := none }]
    processingState := .IDLE
    pdfFilename := "scanned-documents"
    pdfUrl := none
    progressMessage := ""
    errorMessage := ""
    showPdfPreview := false }

/-- A fresh empty session. -/
def sEmpty : Session :=
  { imageFiles := []
    processingState := .IDLE
    pdfFilename := "scanned-documents"
    pdfUrl := none
    progressMessage := ""
    errorMessage := ""
    showPdfPreview := false }

/-- Cleanup outcomes where every call succeeds. -/
def resOk : Nat → Except String String :=
  fun i => .ok ("data:image/png;base64,u" ++ toString i)

/-- Cleanup outcomes where the first call fails and the second succeeds. -/
def resFail : Nat → Except String String :=
  fun i =>
    if i = 0 then .error "Failed to process image with AI. API response did not contain any candidates."
    else .ok "data:image/png;base64,u1"

/-- A completed session holding an output PDF and two cleaned items. -/
def sDone : Session :=
  { imageFiles :=
      [{ id := "a.jpg-1", originalUrl := "blob:a",
         cleanedUrl := some "data:image/png;base64,u0" },
       { id := "b.jpg-2", originalUrl := "blob:b",
         cleanedUrl := some "data:image/png;base64,u1" }]
    processingState := .COMPLETE
    pdfFilename := "scanned-documents"
    pdfUrl := some "blob:out"
    progressMessage := "Your PDF is ready!"
    errorMessage := ""
    showPdfPreview := true }

/-- A response with no candidates field. -/
def respNoCand : GenResponse := { candidates := none }

/-- A text-only response part. -/
def textPart : Part :=
  { inlineData := none, text := some "I cannot process this image." }

/-- The candidate of `respTextOnly`: finished normally, no image part. -/
def textOnlyCandidate : Candidate :=
  { finishReason := some "STOP", safetyRatings := none,
    content := some { parts := some [textPart] } }

/-- A normally finished response whose only part is text. -/
def respTextOnly : GenResponse :=
  { candidates := some [textOnlyCandidate] }

/-! Section: the reset handler (App.tsx lines 45-54) -/

/-- Reset `startOver`: revoke every item's display URL (in list order), revoke the
output URL when present, then reset all fields except the chosen filename.
Returns the new session and the list of `URL.revokeObjectURL` calls in call
order. -/
def startOver (s : Session) : Session × List String :=
  ({ imageFiles := []
     processingState := .IDLE
     pdfFilename := s.pdfFilename
     pdfUrl := none
     progressMessage := ""
     errorMessage := ""
     showPdfPreview := false },
   s.imageFiles.map ImageFile.originalUrl ++
     (match s.pdfUrl with | some u => [u] | none => []))

/-! Section: helper lemmas -/

/-- Appending `".pdf"` always yields a name that `endsWith '.pdf'`. -/
theorem jsEndsWith_append_pdf (s : String) : jsEndsWith (s ++ ".pdf") ".pdf" = true := by
  simp only [jsEndsWith, String.data_append]
  rw [List.isSuffixOf_iff_suffix]
  exact List.suffix_append _ _

/-- C7.  The download filename equals the entered name when it already ends
with `.pdf`, and otherwise is the entered name with `.pdf` appended once;
the mapping is idempotent. -/
theorem finalPdfFilename_spec (s : String) :
    (jsEndsWith s ".pdf" = true → finalPdfFilename s = s)
    ∧ (jsEndsWith s ".pdf" = false → finalPdfFilename s = s ++ ".pdf")
    ∧ finalPdfFilename (finalPdfFilename s) = finalPdfFilename s := by
  refine ⟨fun h => by simp [finalPdfFilename, h], fun h => by simp [finalPdfFilename, h], ?_⟩
  by_cases h : jsEndsWith s ".pdf" = true
  · simp [finalPdfFilename, h]
  · simp only [finalPdfFilename, h, Bool.false_eq_true, if_false, if_neg]
    simp [jsEndsWith_append_pdf]

/-- Witness for C7 at `"report"` and `"report.pdf"`. -/
theorem finalPdfFilename_spec_witness :
    finalPdfFilename "report" = "report" ++ ".pdf"
    ∧ finalPdfFilename "report.pdf" = "report.pdf" := by
  exact ⟨(finalPdfFilename_spec "report").2.1 (by decide),
         (finalPdfFilename_spec "report.pdf").1 (by decide)⟩

/-- C5.  Width-first fit: an image whose aspect ratio is at least the
content-rectangle ratio `190/277` is rendered at content width `190` with
height derived from the ratio; one whose ratio is below `190/277` is
rendered at content height `277` with width derived; in both cases the
coordinates center the scaled image on the full `210 × 297` page. -/
theorem placeImage_spec (w h : ℚ) (hw : 0 < w) (hh : 0 < h) :
    ((190 : ℚ) / 277 ≤ w / h →
        (placeImage w h).finalWidth = 190 ∧ (placeImage w h).finalHeight = 190 / (w / h))
    ∧ (w / h < (190 : ℚ) / 277 →
        (placeImage w h).finalHeight = 277 ∧ (placeImage w h).finalWidth = 277 * (w / h))
    ∧ (placeImage w h).x = (210 - (placeImage w h).finalWidth) / 2
    ∧ (placeImage w h).y = (297 - (placeImage w h).finalHeight) / 2 := by
  have hr : 0 < w / h := div_pos hw hh
  have hkey : (190 / (w / h) > 277) ↔ (w / h < 190 / 277) := by
    rw [gt_iff_lt, lt_div_iff₀ hr, lt_div_iff₀ (show (0 : ℚ) < 277 by norm_num)]
    constructor <;> intro hx <;> linarith
  have hpw : pageWidth = (190 : ℚ) := by norm_num [pageWidth, A4_WIDTH, MARGIN]
  have hph : pageHeight = (277 : ℚ) := by norm_num [pageHeight, A4_HEIGHT, MARGIN]
  have hAW : A4_WIDTH = (210 : ℚ) := by norm_num [A4_WIDTH]
  have hAH : A4_HEIGHT = (297 : ℚ) := by norm_num [A4_HEIGHT]
  by_cases hcond : (190 : ℚ) / (w / h) > 277
  · have h1 : w / h < 190 / 277 := hkey.mp hcond
    refine ⟨fun hge => absurd h1 (not_lt.mpr hge), fun _ => ⟨?_, ?_⟩, ?_, ?_⟩ <;>
      simp [placeImage, hpw, hph, hAW, hAH, hcond]
  · have h1 : ¬ w / h < 190 / 277 := fun hx => hcond (hkey.mpr hx)
    refine ⟨fun _ => ⟨?_, ?_⟩, fun hlt => absurd hlt h1, ?_, ?_⟩ <;>
      simp [placeImage, hpw, hph, hAW, hAH, hcond]

/-- Witness for C5 at a 3:2 landscape image (ratio `3/2 ≥ 190/277`) — it is
scaled to content width `190`. -/
theorem placeImage_spec_witness :
    ((190 : ℚ) / 277 ≤ 3 / 2 →
        (placeImage 3 2).finalWidth = 190 ∧ (placeImage 3 2).finalHeight = 190 / (3 / 2))
    ∧ ((3 : ℚ) / 2 < (190 : ℚ) / 277 →
        (placeImage 3 2).finalHeight = 277 ∧ (placeImage 3 2).finalWidth = 277 * (3 / 2))
    ∧ (placeImage 3 2).x = (210 - (placeImage 3 2).finalWidth) / 2
    ∧ (placeImage 3 2).y = (297 - (placeImage 3 2).finalHeight) / 2 :=
  placeImage_spec 3 2 (by norm_num) (by norm_num)

/-- From any index `i ≥ 1` onward, every non-null item both adds a page and
places one image. -/
theorem pdfLoop_from_one (items : List (Option String)) :
    ∀ doc : PdfDoc, ∀ i : Nat, 1 ≤ i →
      (pdfLoop doc i items).pages = doc.pages + (items.filter Option.isSome).length
      ∧ (pdfLoop doc i items).placed.length
          = doc.placed.length + (items.filter Option.isSome).length := by
  induction items with
  | nil => intro doc i _; simp [pdfLoop]
  | cons item rest ih =>
    intro doc i hi
    match item with
    | none =>
      have := ih doc (i + 1) (by omega)
      simpa [pdfLoop, pdfLoopStep] using this
    | some imgData =>
      have hstep : pdfLoopStep doc i (some imgData)
          = { pages := doc.pages + 1, placed := doc.placed ++ [(doc.pages + 1, imgData)] } := by
        simp [pdfLoopStep, Nat.lt_of_lt_of_le Nat.zero_lt_one hi]
      have := ih (pdfLoopStep doc i (some imgData)) (i + 1) (by omega)
      rw [hstep] at this
      simp only [pdfLoop, hstep]
      constructor
      · rw [this.1]; simp [List.filter_cons]; omega
      · rw [this.2]; simp [List.filter_cons]; omega

/-- C6 (counterexample).  A null first item followed by a non-null item
yields a two-page document (an initial blank page plus the image page),
while only one cleaned result is non-null — the output page count does not
equal the number of non-null items. -/
theorem pageCount_counterexample :
    (generatePdf [none, some "data:image/png;base64,x"]).pages = 2
    ∧ (([none, some "data:image/png;base64,x"] : List (Option String)).filter
        Option.isSome).length = 1
    ∧ ¬ (generatePdf [none, some "data:image/png;base64,x"]).pages
        = (([none, some "data:image/png;base64,x"] : List (Option String)).filter
            Option.isSome).length := by
  decide

/-- C6 (amended).  The number of placed images equals the number of non-null
cleaned results (null items are skipped without an error and place nothing),
while the page count is `1 +` the number of non-null results at positions
after the first: the two agree exactly when the first item is non-null. -/
theorem generatePdf_pages (cleaned : List (Option String)) :
    (generatePdf cleaned).placed.length = (cleaned.filter Option.isSome).length
    ∧ (generatePdf cleaned).pages
        = 1 + ((cleaned.drop 1).filter Option.isSome).length := by
  match cleaned with
  | [] => simp [generatePdf, pdfLoop]
  | none :: rest =>
    have h := pdfLoop_from_one rest { pages := 1, placed := [] } 1 (le_refl 1)
    constructor
    · simpa [generatePdf, pdfLoop, pdfLoopStep, List.filter] using h.2
    · simpa [generatePdf, pdfLoop, pdfLoopStep, List.filter] using h.1
  | some imgData :: rest =>
    have h := pdfLoop_from_one rest { pages := 1, placed := [(1, imgData)] } 1 (le_refl 1)
    constructor
    · have := h.2
      simp only [generatePdf, pdfLoop, pdfLoopStep] at *
      simpa [List.filter, Nat.add_comm] using this
    · have := h.1
      simp only [generatePdf, pdfLoop, pdfLoopStep] at *
      simpa [List.filter, Nat.add_comm] using this

/-! Section: trace helper lemmas -/

/-- Every event of the start phase is a progress update or a cleanup
invocation. -/
theorem mem_startPhase (n k : Nat) (e : Ev) (h : e ∈ startPhase n k) :
    (∃ m, e = .setProgress m) ∨ ∃ i, e = .callClean i := by
  induction k with
  | zero => simp [startPhase] at h
  | succ k ih =>
    simp only [startPhase, List.mem_append] at h
    rcases h with h | h
    · exact ih h
    · simp only [List.mem_cons, List.mem_singleton] at h
      rcases h with h | h | h
      · exact .inl ⟨_, h⟩
      · exact .inr ⟨_, h⟩
      · cases h

/-- The cleanup invocations of the start phase are `0, …, k-1` in order. -/
theorem filterMap_callIdx_startPhase (n k : Nat) :
    (startPhase n k).filterMap callIdx = List.range k := by
  induction k with
  | zero => simp [startPhase]
  | succ k ih =>
    rw [startPhase, List.filterMap_append, ih, List.range_succ]
    simp [callIdx]

/-- Each cleanup invocation `i < k` in the start phase is immediately
preceded by its progress update. -/
theorem startPhase_decomp (n k i : Nat) (hi : i < k) :
    ∃ l r, startPhase n k
      = l ++ [.setProgress (cleaningMsg i n), .callClean i] ++ r := by
  induction k with
  | zero => omega
  | succ k ih =>
    by_cases h : i < k
    · obtain ⟨l, r, hr⟩ := ih h
      refine ⟨l, r ++ [.setProgress (cleaningMsg k n), .callClean k], ?_⟩
      rw [startPhase, hr]
      simp
    · have hik : i = k := by omega
      subst hik
      exact ⟨startPhase n i, [], by rw [startPhase]; simp⟩

/-- Every settlement-phase event is a `settle`. -/
theorem mem_settlePhase (results : Nat → Except String String) (σ : List Nat)
    (e : Ev) (h : e ∈ settlePhase results σ) : ∃ i r, e = .settle i r := by
  simp only [settlePhase, List.mem_map] at h
  obtain ⟨i, _, hh⟩ := h
  exact ⟨i, results i, hh.symm⟩

/-- No cleanup invocation occurs during settlement. -/
theorem callClean_not_mem_settlePhase (results : Nat → Except String String)
    (σ : List Nat) (i : Nat) : Ev.callClean i ∉ settlePhase results σ := by
  intro h
  obtain ⟨j, r, hr⟩ := mem_settlePhase results σ _ h
  cases hr

/-- No cleanup invocation occurs in the tail events. -/
theorem callClean_not_mem_tailEvents (results : Nat → Except String String)
    (σ : List Nat) (i : Nat) : Ev.callClean i ∉ tailEvents results σ := by
  unfold tailEvents
  cases hfr : firstRejection results σ <;> simp

/-- No settlement occurs in the start phase. -/
theorem settle_not_mem_startPhase (n k j : Nat) (r : Except String String) :
    Ev.settle j r ∉ startPhase n k := by
  intro h
  rcases mem_startPhase n k _ h with ⟨m, hm⟩ | ⟨i, hi⟩
  · cases hm
  · cases hi

/-- The tail yields no cleanup invocation under `filterMap callIdx`. -/
theorem filterMap_callIdx_settle_tail (results : Nat → Except String String)
    (σ : List Nat) :
    (settlePhase results σ).filterMap callIdx = []
    ∧ (tailEvents results σ).filterMap callIdx = [] := by
  constructor
  · induction σ with
    | nil => simp [settlePhase]
    | cons a σ _ih => simp [settlePhase, callIdx]
  · unfold tailEvents
    cases hfr : firstRejection results σ <;> simp [callIdx]

/-- Positions in an append: an element only of the left part sits strictly
before an element only of the right part. -/
theorem pos_lt_of_append {A B : List Ev} {x y : Ev} {kx ky : Nat}
    (hx : (A ++ B)[kx]? = some x) (hy : (A ++ B)[ky]? = some y)
    (hxB : x ∉ B) (hyA : y ∉ A) : kx < ky := by
  have h1 : kx < A.length := by
    by_contra hge
    push_neg at hge
    rw [List.getElem?_append_right hge] at hx
    exact hxB (List.getElem?_mem hx)
  have h2 : ¬ ky < A.length := by
    intro hlt
    rw [List.getElem?_append] at hy
    rw [if_pos hlt] at hy
    exact hyA (List.getElem?_mem hy)
  omega

/-- On a non-empty upload list, the pipeline's trace is `pipelineTrace`. -/
theorem trace_eq (s : Session) (results : Nat → Except String String)
    (σ : List Nat) (u : String) (hn : ¬ s.imageFiles.length = 0) :
    (handleProcessImages s results σ u).2
      = pipelineTrace s.imageFiles.length results σ := by
  unfold handleProcessImages
  simp only [hn, if_false]
  cases hfr : firstRejection results σ <;> simp [hfr]

/-- C1.  On a non-empty upload sequence of length `n`, `cleanImage` is
invoked exactly `n` times, strictly in upload order (the invocation indices
read off the trace are `0, …, n-1`), and immediately before the invocation
for item `i` the progress text is set to the message stating position
`i + 1` of `n`. -/
theorem cleanCalls_order_and_progress (s : Session)
    (results : Nat → Except String String) (σ : List Nat) (u : String)
    (h : s.imageFiles ≠ []) :
    ((handleProcessImages s results σ u).2).filterMap callIdx
        = List.range s.imageFiles.length
    ∧ ∀ i < s.imageFiles.length, ∃ l r,
        (handleProcessImages s results σ u).2
          = l ++ [.setProgress (cleaningMsg i s.imageFiles.length), .callClean i] ++ r := by
  have hn : ¬ s.imageFiles.length = 0 := by simpa using h
  rw [trace_eq s results σ u hn]
  constructor
  · unfold pipelineTrace
    rw [List.filterMap_append, List.filterMap_append, List.filterMap_append,
      filterMap_callIdx_startPhase, (filterMap_callIdx_settle_tail results σ).1,
      (filterMap_callIdx_settle_tail results σ).2]
    simp [callIdx]
  · intro i hi
    obtain ⟨l, r, hr⟩ := startPhase_decomp s.imageFiles.length s.imageFiles.length i hi
    refine ⟨[.setState .PROCESSING, .setErrorMessage ""] ++ l,
            r ++ settlePhase results σ ++ tailEvents results σ, ?_⟩
    unfold pipelineTrace
    rw [hr]
    simp

/-- Witness for C1 on the concrete two-item session. -/
theorem cleanCalls_order_and_progress_witness :
    ((handleProcessImages sTwo resOk [0, 1] "blob:out").2).filterMap callIdx
        = List.range sTwo.imageFiles.length
    ∧ ∀ i < sTwo.imageFiles.length, ∃ l r,
        (handleProcessImages sTwo resOk [0, 1] "blob:out").2
          = l ++ [.setProgress (cleaningMsg i sTwo.imageFiles.length), .callClean i] ++ r :=
  cleanCalls_order_and_progress sTwo resOk [0, 1] "blob:out" (by decide)

/-- C2 (counterexample).  On the two-item session with both calls
succeeding and settling in index order, the invocation of the second
item's cleanup (trace position 5) occurs before the first item's call
settles (trace position 6): the claimed serialization — every completion
of item `i` precedes every start of item `j` for `i < j` — is false. -/
theorem serialization_counterexample :
    ¬ (∀ (i j ki kj : Nat) (rr : Except String String), i < j →
        ((handleProcessImages sTwo resOk [0, 1] "blob:out").2)[ki]?
            = some (Ev.settle i rr) →
        ((handleProcessImages sTwo resOk [0, 1] "blob:out").2)[kj]?
            = some (Ev.callClean j) →
        ki < kj) := by
  intro hclaim
  have h := hclaim 0 1 6 5 (resOk 0) (by decide) (by decide) (by decide)
  omega

/-- C2 (amended).  Every cleanup invocation precedes every settlement in
the trace: the `map` starts all calls synchronously, in upload order,
before any of them can complete, and `Promise.all` then awaits them
together — the calls are concurrent, not serialized. -/
theorem calls_start_before_any_settles (s : Session)
    (results : Nat → Except String String) (σ : List Nat) (u : String)
    (i j ki kj : Nat) (rr : Except String String)
    (hi : ((handleProcessImages s results σ u).2)[ki]? = some (Ev.callClean i))
    (hj : ((handleProcessImages s results σ u).2)[kj]? = some (Ev.settle j rr)) :
    ki < kj := by
  by_cases hn : s.imageFiles.length = 0
  · exfalso
    have htr : (handleProcessImages s results σ u).2
        = [.setErrorMessage "Please upload at least one image."] := by
      unfold handleProcessImages
      simp [hn]
    rw [htr] at hi
    rcases ki with _ | ki <;> simp at hi
  · rw [trace_eq s results σ u hn] at hi hj
    have hsplit : pipelineTrace s.imageFiles.length results σ
        = ([Ev.setState .PROCESSING, Ev.setErrorMessage ""]
            ++ startPhase s.imageFiles.length s.imageFiles.length)
          ++ (settlePhase results σ ++ tailEvents results σ) := by
      unfold pipelineTrace
      simp
    rw [hsplit] at hi hj
    refine pos_lt_of_append hi hj ?_ ?_
    · intro hmem
      rcases List.mem_append.mp hmem with hmem | hmem
      · exact callClean_not_mem_settlePhase results σ i hmem
      · exact callClean_not_mem_tailEvents results σ i hmem
    · intro hmem
      rcases List.mem_append.mp hmem with hmem | hmem
      · simp at hmem
      · exact settle_not_mem_startPhase _ _ j rr hmem

/-- Witness for C2's amended theorem: on the concrete trace, the first
invocation (position 3) precedes the first settlement (position 6). -/
theorem calls_start_before_any_settles_witness :
    ((handleProcessImages sTwo resOk [0, 1] "blob:out").2)[3]?
        = some (Ev.callClean 0)
    ∧ ((handleProcessImages sTwo resOk [0, 1] "blob:out").2)[6]?
        = some (Ev.settle 0 (resOk 0))
    ∧ (3 : Nat) < 6 :=
  ⟨by decide, by decide,
   calls_start_before_any_settles sTwo resOk [0, 1] "blob:out" 0 0 3 6 (resOk 0)
     (by decide) (by decide)⟩

/-- C3 (counterexample).  With two items where the first cleanup call fails
(`k = 1` of `n = 2`), the cleanup call for the second item is still made —
the trace contains its invocation — contradicting the claim that calls
`k+1..n` never occur. -/
theorem later_calls_still_made :
    resFail 0 = .error "Failed to process image with AI. API response did not contain any candidates."
    ∧ Ev.callClean 1 ∈ (handleProcessImages sTwo resFail [0, 1] "blob:out").2 := by
  constructor
  · decide
  · decide

/-- C3 (amended).  If some cleanup call fails, every one of the `n` calls
is nevertheless initiated; the session transitions to `ERROR` and the held
error message equals the failure description of the first call to fail in
settlement order (the rejection `Promise.all` propagates). -/
theorem failure_path_spec (s : Session)
    (results : Nat → Except String String) (σ : List Nat) (u : String)
    (j : Nat) (e : String) (h : s.imageFiles ≠ [])
    (hj : firstRejection results σ = some j) (he : results j = .error e) :
    (handleProcessImages s results σ u).1.processingState = .ERROR
    ∧ (handleProcessImages s results σ u).1.errorMessage = e
    ∧ ∀ i < s.imageFiles.length,
        Ev.callClean i ∈ (handleProcessImages s results σ u).2 := by
  have hn : ¬ s.imageFiles.length = 0 := by simpa using h
  have hmsg : rejectionMsg results j = e := by simp [rejectionMsg, he]
  refine ⟨?_, ?_, ?_⟩
  · unfold handleProcessImages
    simp [hn, hj]
  · unfold handleProcessImages
    simp [hn, hj, hmsg]
  · intro i hi
    rw [trace_eq s results σ u hn]
    obtain ⟨l, r, hr⟩ := startPhase_decomp s.imageFiles.length s.imageFiles.length i hi
    unfold pipelineTrace
    rw [hr]
    simp

/-- Witness for C3's amended theorem on the concrete failing session. -/
theorem failure_path_spec_witness :
    (handleProcessImages sTwo resFail [0, 1] "blob:out").1.processingState = .ERROR
    ∧ (handleProcessImages sTwo resFail [0, 1] "blob:out").1.errorMessage
        = "Failed to process image with AI. API response did not contain any candidates."
    ∧ ∀ i < sTwo.imageFiles.length,
        Ev.callClean i ∈ (handleProcessImages sTwo resFail [0, 1] "blob:out").2 :=
  failure_path_spec sTwo resFail [0, 1] "blob:out" 0
    "Failed to process image with AI. API response did not contain any candidates."
    (by decide) (by decide) (by decide)

/-- C4.  Starting assembly with an empty upload sequence performs no
cleanup invocation and no PDF generation, leaves the session status at
`IDLE` (and the upload list and output reference unchanged), and sets the
validation message asking for at least one image. -/
theorem empty_upload_spec (s : Session)
    (results : Nat → Except String String) (σ : List Nat) (u : String)
    (hempty : s.imageFiles = []) (hidle : s.processingState = .IDLE) :
    (handleProcessImages s results σ u).1.processingState = .IDLE
    ∧ (handleProcessImages s results σ u).1.errorMessage
        = "Please upload at least one image."
    ∧ (∀ i, Ev.callClean i ∉ (handleProcessImages s results σ u).2)
    ∧ Ev.generatePdfRun ∉ (handleProcessImages s results σ u).2
    ∧ (handleProcessImages s results σ u).1.imageFiles = s.imageFiles
    ∧ (handleProcessImages s results σ u).1.pdfUrl = s.pdfUrl := by
  have hn : s.imageFiles.length = 0 := by simp [hempty]
  unfold handleProcessImages
  simp [hn, hidle, hempty]

/-- Witness for C4 on the concrete empty session. -/
theorem empty_upload_spec_witness :
    (handleProcessImages sEmpty resOk [] "blob:out").1.processingState = .IDLE
    ∧ (handleProcessImages sEmpty resOk [] "blob:out").1.errorMessage
        = "Please upload at least one image."
    ∧ (∀ i, Ev.callClean i ∉ (handleProcessImages sEmpty resOk [] "blob:out").2)
    ∧ Ev.generatePdfRun ∉ (handleProcessImages sEmpty resOk [] "blob:out").2
    ∧ (handleProcessImages sEmpty resOk [] "blob:out").1.imageFiles = sEmpty.imageFiles
    ∧ (handleProcessImages sEmpty resOk [] "blob:out").1.pdfUrl = sEmpty.pdfUrl :=
  empty_upload_spec sEmpty resOk [] "blob:out" (by decide) (by decide)

/-- C8.  Resetting the session from any state revokes each upload item's
display URL exactly once and the output URL exactly once when it exists,
and returns the session to `IDLE` with an empty upload list, no output
reference, and cleared progress and error text.  (The URL hypotheses
reflect that `URL.createObjectURL` returns distinct URLs.) -/
theorem startOver_spec (s : Session)
    (hnodup : (s.imageFiles.map ImageFile.originalUrl).Nodup)
    (hout : ∀ v, s.pdfUrl = some v → v ∉ s.imageFiles.map ImageFile.originalUrl) :
    (∀ f ∈ s.imageFiles, (startOver s).2.count f.originalUrl = 1)
    ∧ (∀ v, s.pdfUrl = some v → (startOver s).2.count v = 1)
    ∧ (startOver s).1.imageFiles = []
    ∧ (startOver s).1.processingState = .IDLE
    ∧ (startOver s).1.pdfUrl = none
    ∧ (startOver s).1.progressMessage = ""
    ∧ (startOver s).1.errorMessage = "" := by
  refine ⟨?_, ?_, rfl, rfl, rfl, rfl, rfl⟩
  · intro f hf
    have hmem : f.originalUrl ∈ s.imageFiles.map ImageFile.originalUrl :=
      List.mem_map_of_mem _ hf
    have h1 : (s.imageFiles.map ImageFile.originalUrl).count f.originalUrl = 1 :=
      List.count_eq_one_of_mem hnodup hmem
    cases hp : s.pdfUrl with
    | none =>
      simp only [startOver, hp]
      rw [List.count_append, h1]
      simp
    | some v =>
      have hne : v ≠ f.originalUrl := fun hvu => hout v hp (hvu ▸ hmem)
      simp only [startOver, hp]
      rw [List.count_append, h1]
      simp [List.count_cons, hne]
  · intro v hp
    have h1 : (s.imageFiles.map ImageFile.originalUrl).count v = 0 :=
      List.count_eq_zero_of_not_mem (hout v hp)
    simp only [startOver, hp]
    rw [List.count_append, h1]
    simp

/-- Witness for C8 on the completed concrete session. -/
theorem startOver_spec_witness :
    (∀ f ∈ sDone.imageFiles, (startOver sDone).2.count f.originalUrl = 1)
    ∧ (∀ v, sDone.pdfUrl = some v → (startOver sDone).2.count v = 1)
    ∧ (startOver sDone).1.imageFiles = []
    ∧ (startOver sDone).1.processingState = .IDLE
    ∧ (startOver sDone).1.pdfUrl = none
    ∧ (startOver sDone).1.progressMessage = ""
    ∧ (startOver sDone).1.errorMessage = "" :=
  startOver_spec sDone (by decide) (by decide)

/-- C9.  The response handling of `cleanImage` fails in exactly the four
enumerated cases, each with its specified message — (1) no candidate;
(2) a (truthy) finish reason differing from `STOP`, the message carrying
the reason and, when present and non-empty, the safety ratings; (3) text
but no image, the text quoted; (4) neither image nor text, the generic
malformed-response message — and otherwise returns the data URI built from
the returned image's mime type and base64 payload.  The final equivalence
states the "exactly": success happens precisely when a candidate exists,
finished normally, and carries an image part. -/
theorem processResponse_cases (r : GenResponse) :
    (r.firstCandidate = none →
        processResponse r = .error "API response did not contain any candidates.")
    ∧ (∀ c, r.firstCandidate = some c →
        (abnormalFinish c = true → ∀ fr, c.finishReason = some fr →
            processResponse r = .error
              ("Image generation stopped. Reason: " ++ fr ++ "." ++
                (match c.safetyRatings with
                 | some rs =>
                   if rs.length > 0 then " Safety Ratings: " ++ jsonStringifyRatings rs
                   else ""
                 | none => "")))
        ∧ (abnormalFinish c = false →
            (∀ d, findInline c = some d →
                processResponse r
                  = .ok ("data:" ++ d.mimeType ++ ";base64," ++ d.data))
            ∧ (findInline c = none →
                (∀ t, findText c = some t →
                    processResponse r
                      = .error ("API returned text instead of an image: \"" ++ t ++ "\""))
                ∧ (findText c = none →
                    processResponse r
                      = .error "API did not return an image. The response was empty or malformed."))))
    ∧ ((∃ v, processResponse r = .ok v)
        ↔ ∃ c, r.firstCandidate = some c ∧ abnormalFinish c = false
            ∧ findInline c ≠ none) := by
  refine ⟨fun h => by simp [processResponse, h], fun c hc => ⟨?_, ?_⟩, ?_, ?_⟩
  · intro hab fr hfr
    have hmsg : stopMessage c
        = "Image generation stopped. Reason: " ++ fr ++ "." ++
            (match c.safetyRatings with
             | some rs =>
               if rs.length > 0 then " Safety Ratings: " ++ jsonStringifyRatings rs
               else ""
             | none => "") := by
      cases hsr : c.safetyRatings with
      | none => simp [stopMessage, hfr, hsr]
      | some rs =>
        by_cases hlen : rs.length > 0
        · simp only [stopMessage, hfr, hsr, Option.getD_some, if_pos hlen]
          rw [String.append_assoc]
        · simp only [stopMessage, hfr, hsr, Option.getD_some, if_neg hlen]
          simp
    rw [← hmsg]
    simp [processResponse, hc, hab]
  · intro hab
    refine ⟨fun d hd => ?_, fun hnone => ⟨fun t ht => ?_, fun hnot => ?_⟩⟩
    · simp [processResponse, hc, hab, hd]
    · simp [processResponse, hc, hab, hnone, ht]
    · simp [processResponse, hc, hab, hnone, hnot]
  · rintro ⟨v, hv⟩
    cases hc : r.firstCandidate with
    | none => simp [processResponse, hc] at hv
    | some c =>
      cases hab : abnormalFinish c with
      | true => simp [processResponse, hc, hab] at hv
      | false =>
        cases hin : findInline c with
        | some d => exact ⟨c, hc ▸ rfl, hab, by simp [hin]⟩
        | none =>
          cases hft : findText c with
          | some t => simp [processResponse, hc, hab, hin, hft] at hv
          | none => simp [processResponse, hc, hab, hin, hft] at hv
  · rintro ⟨c, hc, hab, hin⟩
    cases hd : findInline c with
    | none => exact absurd hd hin
    | some d =>
      exact ⟨"data:" ++ d.mimeType ++ ";base64," ++ d.data,
        by simp [processResponse, hc, hab, hd]⟩

/-- Witness for C9: the no-candidate case and the text-only case on
concrete responses. -/
theorem processResponse_cases_witness :
    processResponse respNoCand = .error "API response did not contain any candidates."
    ∧ processResponse respTextOnly
        = .error "API returned text instead of an image: \"I cannot process this image.\"" := by
  refine ⟨(processResponse_cases respNoCand).1 (by decide), ?_⟩
  exact ((((processResponse_cases respTextOnly).2.1 textOnlyCandidate
      (by decide)).2 (by decide)).2 (by decide)).1
      "I cannot process this image." (by decide)

/-- C10.  Whatever the failure cause — the file-parsing rejection, the
reader's non-`Error` rejection, or any of the enumerated response failures
— the error surfaced by `cleanImage` carries the fixed prefix
`"Failed to process image with AI."`, followed by the underlying cause's
message when one exists. -/
theorem cleanImage_error_prefix (fileResult : Except JsError (String × String))
    (resp : GenResponse) (e : String)
    (he : cleanImage fileResult resp = .error e) :
    (∃ rest, e = "Failed to process image with AI. " ++ rest)
    ∧ (∀ m, fileResult = .error (.jsError m) →
        e = "Failed to process image with AI. " ++ m)
    ∧ (∀ p, fileResult = .ok p → ∀ m, processResponse resp = .error m →
        e = "Failed to process image with AI. " ++ m) := by
  refine ⟨?_, ?_, ?_⟩
  · cases fileResult with
    | error je =>
      cases je with
      | jsError m =>
        unfold cleanImage at he
        simp only [Except.error.injEq] at he
        exact ⟨m, he.symm⟩
      | nonError =>
        unfold cleanImage at he
        simp only [Except.error.injEq] at he
        exact ⟨"An unknown error occurred.", he.symm⟩
    | ok p =>
      unfold cleanImage at he
      cases hpr : processResponse resp with
      | ok v => rw [hpr] at he; cases he
      | error m =>
        rw [hpr] at he
        simp only [Except.error.injEq] at he
        exact ⟨m, he.symm⟩
  · intro m hm
    rw [hm] at he
    unfold cleanImage at he
    simp only [Except.error.injEq] at he
    exact he.symm
  · intro p hp m hm
    rw [hp] at he
    unfold cleanImage at he
    rw [hm] at he
    simp only [Except.error.injEq] at he
    exact he.symm

/-- Witness for C10 at the concrete file-parse failure. -/
theorem cleanImage_error_prefix_witness :
    (∃ rest, "Failed to process image with AI. Failed to parse base64 string from file."
        = "Failed to process image with AI. " ++ rest)
    ∧ (∀ m, (Except.error (JsError.jsError "Failed to parse base64 string from file.")
          : Except JsError (String × String)) = .error (.jsError m) →
        "Failed to process image with AI. Failed to parse base64 string from file."
          = "Failed to process image with AI. " ++ m)
    ∧ (∀ p, (Except.error (JsError.jsError "Failed to parse base64 string from file.")
          : Except JsError (String × String)) = .ok p →
        ∀ m, processResponse respNoCand = .error m →
        "Failed to process image with AI. Failed to parse base64 string from file."
          = "Failed to process image with AI. " ++ m) :=
  cleanImage_error_prefix
    (.error (.jsError "Failed to parse base64 string from file.")) respNoCand
    "Failed to process image with AI. Failed to parse base64 string from file."
    (by decide)

end DocScanner
